import Mathlib

/-!
Verification of the pytr web relay against its specification.

The Python sources under `src/web/` are embedded shallowly: every stateful
function becomes a pure Lean function that takes the relevant global state
explicitly and returns the updated state alongside its result.  Wall-clock
time (`time.time()`) is modelled as a rational parameter `now`, money-free
float arithmetic (bitrates, playback times) is modelled over `ℚ`, and
Python dictionaries become association lists with Python's insertion-order
update semantics.
-/

namespace Pytr

/-! ## Python value helpers -/

/-- Truthiness of an optional Python string: `None` and `""` are falsy. -/
def pyTruthyStr : Option String → Bool
  | none => false
  | some s => !(s == "")

/-- Python `s.startswith(p)`, computed over character lists. -/
def strStartsWith (s p : String) : Bool := p.toList.isPrefixOf s.toList

/-- Python `round` to the nearest integer, ties to even (banker's rounding). -/
def roundHalfEven (q : ℚ) : ℤ :=
  let f := ⌊q⌋
  let frac := q - (f : ℚ)
  if frac < 1/2 then f
  else if frac > 1/2 then f + 1
  else if 2 ∣ f then f else f + 1

/-- Python `round(x, 1)`: round to one decimal place, ties to even. -/
def pyRound1 (q : ℚ) : ℚ := ((roundHalfEven (q * 10) : ℤ) : ℚ) / 10

/-! ## C10 — auth gate with no stored password (src/web/auth.py) -/

/-- `_get_password` returns the app password stored in the DB, `None` during
first-run bootstrap; sessions are looked up by token.  `get_session` stands
for `profiles_db.get_session` (`isSome` = a session row exists). -/
def verify_session (app_password : Option String) (cookie : Option String)
    (get_session : String → Option Nat) : Bool :=
  if pyTruthyStr app_password = false then true
  else match cookie with
    | some token => if token ≠ "" then (get_session token).isSome else false
    | none => false

/-- Result of the `require_auth` FastAPI dependency. -/
inductive AuthResult
  | ok
  | unauthorized
  deriving Repr, DecidableEq

/-- `require_auth` (src/web/auth.py, lines 156-162). -/
def require_auth (app_password : Option String) (cookie : Option String)
    (get_session : String → Option Nat) : AuthResult :=
  if pyTruthyStr app_password = false then .ok
  else if verify_session app_password cookie get_session then .ok
  else .unauthorized

/-! ## C8 — playback position persistence (src/web/routes/remote.py) -/

/-- Fields of a `state` message relevant to `_save_position_from_state`.
`currentTime` and `duration` default to `0` when absent (`state.get(k, 0)`). -/
structure PlayerState where
  videoId : String
  currentTime : ℚ
  duration : ℚ
  title : String := ""
  channel : String := ""
  thumbnail : String := ""
  deriving Repr, DecidableEq

/-- What `_save_position_from_state` persists, if anything. -/
inductive SaveOutcome
  | nothing
  | clear
  | save (pos : ℚ)
  deriving Repr, DecidableEq

/-- `_save_position_from_state` (src/web/routes/remote.py, lines 239-275).
`profile_id` is `_token_to_profile.get(token)` (Python: `None` and `0` are
falsy), `last_save` is `_last_position_save.get(token, 0)`.  Returns the
persisted outcome and the token's new `_last_position_save` entry
(`none` = left unchanged). -/
def savePositionFromState (profile_id : Option Nat) (st : PlayerState)
    (now last_save : ℚ) : SaveOutcome × Option ℚ :=
  if profile_id.getD 0 = 0 then (.nothing, none)
  else if st.videoId = "" ∨ st.currentTime = 0 then (.nothing, none)
  else if now - last_save < 5 then (.nothing, none)
  else if st.duration > 0 ∧
      (st.currentTime > st.duration - 30 ∨ st.currentTime / st.duration > 95/100) then
    (.clear, some now)
  else if st.currentTime > 5 then
    (.save (pyRound1 st.currentTime), some now)
  else (.nothing, some now)

/-! ## Python dictionaries as association lists (insertion-ordered) -/

/-- `m.get(k)` on a Python dict. -/
def pyGet {κ α : Type} [DecidableEq κ] : List (κ × α) → κ → Option α
  | [], _ => none
  | (k', v) :: t, k => if k' = k then some v else pyGet t k

/-- `m[k] = v` on a Python dict: replace in place, else append. -/
def pySet {κ α : Type} [DecidableEq κ] : List (κ × α) → κ → α → List (κ × α)
  | [], k, v => [(k, v)]
  | (k', v') :: t, k, v =>
      if k' = k then (k, v) :: t else (k', v') :: pySet t k v

/-! ## C6 — range proxy (src/web/app.py `_proxy_range_request`) -/

/-- What `_proxy_range_request` inspects on the opened upstream response. -/
structure UpstreamResponse where
  status : Nat
  contentType : Option String
  contentRange : Option String
  contentLength : Option String
  deriving Repr, DecidableEq

/-- The `Range` header sent upstream (src/web/app.py, lines 1000-1008):
the client's header verbatim when present, else `bytes=0-` when a filesize
is known, else none. -/
def upstreamRangeHeader (clientRange : Option String) (filesize : Option Nat) :
    Option String :=
  if pyTruthyStr clientRange then clientRange
  else if filesize.getD 0 ≠ 0 then some "bytes=0-"
  else none

/-- The response committed to the client: either an `HTTPException` (no body
bytes streamed) or a streaming response mirroring upstream headers. -/
inductive ProxyResult
  | httpError (status : Nat)
  | streamed (status : Nat) (contentType : String)
      (contentRange contentLength : Option String)
  deriving Repr, DecidableEq

def ProxyResult.clientStatus : ProxyResult → Nat
  | .httpError s => s
  | .streamed s _ _ _ => s

def ProxyResult.streamsBody : ProxyResult → Bool
  | .httpError _ => false
  | .streamed _ _ _ _ => true

/-- `_proxy_range_request` from the point the upstream response is observed
(src/web/app.py, lines 1022-1056). -/
def proxyRangeRequest (u : UpstreamResponse) : ProxyResult :=
  if 400 ≤ u.status then .httpError u.status
  else
    .streamed (if u.status = 206 then 206 else 200)
      (u.contentType.getD "video/mp4") u.contentRange u.contentLength

/-! ## C5 — DASH manifest cache (src/web/app.py `get_dash_manifest`) -/

/-- An entry of `_dash_cache`: the MPD text and its creation time. -/
structure DashEntry where
  mpd : String
  created : ℚ
  deriving Repr, DecidableEq

/-- `_DASH_CACHE_TTL = 5 * 3600` (src/web/app.py, line 116). -/
def DASH_CACHE_TTL : ℚ := 5 * 3600

/-- `get_dash_manifest` reduced to its caching skeleton (src/web/app.py,
lines 814-822 and 968-975).  `build` abstracts everything between the cache
check and the cache write: resolving formats with the requested max height
and rendering the MPD, which can fail (`.error` = an HTTP error is raised,
nothing cached).  Returns the response, the new cache, and whether a fresh
build ran. -/
def getDashManifest (cache : List (String × DashEntry)) (video_id : String)
    (quality : Nat) (now : ℚ) (build : Nat → Except String String) :
    Except String String × List (String × DashEntry) × Bool :=
  match pyGet cache video_id with
  | some e =>
      if now - e.created < DASH_CACHE_TTL then (.ok e.mpd, cache, false)
      else
        match build quality with
        | .ok mpd => (.ok mpd, pySet cache video_id ⟨mpd, now⟩, true)
        | .error err => (.error err, cache, true)
  | none =>
      match build quality with
      | .ok mpd => (.ok mpd, pySet cache video_id ⟨mpd, now⟩, true)
      | .error err => (.error err, cache, true)

/-! ## C4 — DASH representation dedup (src/web/app.py, lines 859-874) -/

/-- The format fields the dedup loop reads.  `tbr` is `fmt.get('tbr')`
(may be missing); `format_id`/`url` identify the representation that is
ultimately emitted into the MPD. -/
structure VFmt where
  format_id : String
  url : String
  height : Nat
  vcodec : String
  tbr : Option ℚ
  deriving Repr, DecidableEq

/-- `fmt.get('vcodec', '').startswith('avc1')`. -/
def isAvc1 (f : VFmt) : Bool := strStartsWith f.vcodec "avc1"

/-- `fmt.get('tbr') or 0`. -/
def tbr0 (f : VFmt) : ℚ := f.tbr.getD 0

/-- The replacement test of the dedup loop: candidate `f` replaces the
incumbent `e` stored at the same height (src/web/app.py, lines 867-873). -/
def dedupReplaces (f e : VFmt) : Bool :=
  (isAvc1 f && !isAvc1 e) || ((isAvc1 f == isAvc1 e) && decide (tbr0 e < tbr0 f))

/-- One iteration of `for fmt in video_fmts` over the `best_video` dict. -/
def bestVideoStep (m : List (Nat × VFmt)) (f : VFmt) : List (Nat × VFmt) :=
  match pyGet m f.height with
  | none => pySet m f.height f
  | some e => if dedupReplaces f e then pySet m f.height f else m

/-- The `best_video` dict after the whole loop. -/
def bestVideo (l : List VFmt) : List (Nat × VFmt) := l.foldl bestVideoStep []

/-- The representation the dedup selects at a given height. -/
def selectedAt (l : List VFmt) (h : Nat) : Option VFmt := pyGet (bestVideo l) h

/-- The dedup loop restricted to one height (used to reason about
`selectedAt`; proven equal to it in `selectedAt_eq_bestAt`). -/
def stepAt (h : Nat) (acc : Option VFmt) (f : VFmt) : Option VFmt :=
  if f.height = h then
    match acc with
    | none => some f
    | some e => if dedupReplaces f e then some f else some e
  else acc

def bestAt (h : Nat) (l : List VFmt) : Option VFmt := l.foldl (stepAt h) none

/-- Lexicographic strict order on (codec-family bit, bitrate) pairs. -/
def lexLt (p q : Bool × ℚ) : Prop :=
  (p.1 = false ∧ q.1 = true) ∨ (p.1 = q.1 ∧ p.2 < q.2)

/-- Lexicographic non-strict order on (codec-family bit, bitrate) pairs. -/
def lexLe (p q : Bool × ℚ) : Prop :=
  (p.1 = false ∧ q.1 = true) ∨ (p.1 = q.1 ∧ p.2 ≤ q.2)

/-- The comparison key realised by `dedupReplaces`: H.264 beats non-H.264,
then higher effective bitrate beats lower. -/
def bkey (f : VFmt) : Bool × ℚ := (isAvc1 f, tbr0 f)

/-- Strict preference order realised by `dedupReplaces`. -/
def keyLt (e f : VFmt) : Prop := lexLt (bkey e) (bkey f)

/-- Non-strict version of `keyLt`. -/
def keyLe (e f : VFmt) : Prop := lexLe (bkey e) (bkey f)

/-- `m` is what the claim calls the selected representation at height `h`:
it is drawn from the input and no input format at that height beats it. -/
def SelSpec (l : List VFmt) (h : Nat) (m : VFmt) : Prop :=
  m ∈ l ∧ m.height = h ∧ ∀ g ∈ l, g.height = h → keyLe g m

/-- No two distinct input formats at the same height tie on codec family and
effective bitrate. -/
def NoTies (l : List VFmt) : Prop :=
  ∀ f ∈ l, ∀ g ∈ l, f.height = g.height → isAvc1 f = isAvc1 g →
    tbr0 f = tbr0 g → f = g

/-! ## C1/C2 — extraction arbitration (src/web/helpers.py `get_video_info`) -/

/-- Occurrence of the character list `p` inside `s`. -/
def containsSub (p : List Char) : List Char → Bool
  | [] => p.isEmpty
  | c :: t => p.isPrefixOf (c :: t) || containsSub p t

/-- Python `p in s` (substring containment). -/
def strContains (s p : String) : Bool := containsSub p.toList s.toList

/-- `_AGE_RESTRICTED_PATTERNS` (src/web/helpers.py, lines 37-43). -/
def AGE_RESTRICTED_PATTERNS : List String :=
  ["sign in to confirm your age", "age-restricted", "age restricted",
   "age_restricted", "content warning"]

/-- `_THROTTLE_PATTERNS` (src/web/helpers.py, lines 45-49). -/
def THROTTLE_PATTERNS : List String :=
  ["sign in to confirm you", "this video requires login", "bot"]

/-- Python `s.lower()`, computed over character lists. -/
def pyLower (s : String) : String := String.mk (s.toList.map Char.toLower)

/-- `_is_age_restricted` (src/web/helpers.py, lines 52-55). -/
def isAgeRestricted (error_msg : String) : Bool :=
  AGE_RESTRICTED_PATTERNS.any fun p => strContains (pyLower error_msg) p

/-- `_is_throttled` (src/web/helpers.py, lines 58-64): never matches when
the message is an age-restriction match. -/
def isThrottled (error_msg : String) : Bool :=
  if isAgeRestricted error_msg then false
  else THROTTLE_PATTERNS.any fun p => strContains (pyLower error_msg) p

/-- The opaque yt-dlp info dict. -/
abbrev VideoInfo := String

instance instDecEqExcept {ε α : Type} [DecidableEq ε] [DecidableEq α] :
    DecidableEq (Except ε α) := fun x y =>
  match x, y with
  | .ok a, .ok b =>
      if h : a = b then isTrue (by rw [h])
      else isFalse (by intro hc; cases hc; exact h rfl)
  | .error a, .error b =>
      if h : a = b then isTrue (by rw [h])
      else isFalse (by intro hc; cases hc; exact h rfl)
  | .ok _, .error _ => isFalse (by intro hc; cases hc)
  | .error _, .ok _ => isFalse (by intro hc; cases hc)

/-- An `_info_cache` entry: a positive entry (`'info'` key plus optional
`'age_restricted'` flag) or a negative entry (`'error'` key); both carry
`'created'`.  `cached.get('error')` truthiness is modelled as the presence
of the `'error'` key — every error entry the function writes carries the
raised exception's message. -/
inductive InfoEntry
  | info (payload : VideoInfo) (created : ℚ) (age_restricted : Bool)
  | err (msg : String) (created : ℚ)
  deriving Repr, DecidableEq

/-- `entry['created']`. -/
def InfoEntry.created : InfoEntry → ℚ
  | .info _ c _ => c
  | .err _ c => c

/-- `cached.get('age_restricted')` truthiness (error entries never carry
the key). -/
def InfoEntry.ageRestricted : InfoEntry → Bool
  | .info _ _ a => a
  | .err _ _ => false

/-- The globals `get_video_info` touches: `_info_cache` and
`_throttled_until`. -/
structure InfoState where
  cache : List (String × InfoEntry)
  throttled_until : ℚ
  deriving Repr, DecidableEq

/-- `_INFO_CACHE_TTL = 5 * 3600` (src/web/helpers.py, line 183). -/
def INFO_CACHE_TTL : ℚ := 5 * 3600

/-- `_NEGATIVE_CACHE_TTL = 300` (src/web/helpers.py, line 184). -/
def NEGATIVE_CACHE_TTL : ℚ := 300

/-- `_THROTTLE_COOLDOWN = 600` (src/web/helpers.py, line 69). -/
def THROTTLE_COOLDOWN : ℚ := 600

/-- Which yt-dlp instance an extraction used. -/
inductive Attempt
  | anon
  | auth
  deriving Repr, DecidableEq

/-- The cache check run both before and after taking `_info_lock`
(src/web/helpers.py, lines 216-223 and 227-234): a fresh negative entry
re-raises the cached error, a fresh positive entry returns the cached
info, anything else falls through to extraction. -/
def cacheCheck (entry : Option InfoEntry) (now : ℚ) :
    Option (Except String VideoInfo) :=
  match entry with
  | none => none
  | some (.err msg c) =>
      if now - c < NEGATIVE_CACHE_TTL then some (.error msg) else none
  | some (.info payload c _) =>
      if now - c < INFO_CACHE_TTL then some (.ok payload) else none

/-- The extraction part of `get_video_info` (src/web/helpers.py, lines
236-285), run when neither cache check returned: choose which instance to
try first, extract, classify an anonymous failure and possibly retry with
cookies, and populate the cache.  `mode` is the already-normalised
`cookie_mode`. -/
def getVideoInfoMiss (st : InfoState) (video_id mode : String) (now : ℚ)
    (authAvailable : Bool) (anon auth : Except String VideoInfo) :
    Except String VideoInfo × InfoState × List Attempt :=
  let cached := pyGet st.cache video_id
  let flagged := cached.elim false InfoEntry.ageRestricted
  let use_auth_first : Bool :=
    if mode == "on" && authAvailable then true
    else if mode == "auto" && authAvailable then
      flagged || decide (now < st.throttled_until)
    else false
  if use_auth_first then
    match auth with
    | .ok payload =>
        (.ok payload,
          { st with cache := pySet st.cache video_id (.info payload now flagged) },
          [.auth])
    | .error e =>
        (.error e,
          { st with cache := pySet st.cache video_id (.err e now) },
          [.auth])
  else
    match anon with
    | .ok payload =>
        (.ok payload,
          { st with cache := pySet st.cache video_id (.info payload now flagged) },
          [.anon])
    | .error e =>
        if mode == "auto" && authAvailable && (isAgeRestricted e || isThrottled e) then
          match auth with
          | .ok payload =>
              (.ok payload,
                { cache := pySet st.cache video_id (.info payload now (isAgeRestricted e))
                  throttled_until :=
                    if isThrottled e then now + THROTTLE_COOLDOWN
                    else st.throttled_until },
                [.anon, .auth])
          | .error e2 =>
              (.error e2,
                { st with cache := pySet st.cache video_id (.err e2 now) },
                [.anon, .auth])
        else
          (.error e,
            { st with cache := pySet st.cache video_id (.err e now) },
            [.anon])

/-- `get_video_info` (src/web/helpers.py, lines 198-285) as seen by one
thread holding `_info_lock`: the two cache reads see the same state and
`time.time()` is the single instant `now`.  `anon`/`auth` are the outcomes
`ydl_info.extract_info` / `ydl_info_auth.extract_info` would produce for
this call; `authAvailable` says `ydl_info_auth is not None`.  Returns the
outcome (`.error` = exception raised), the new globals, and the extraction
attempts in order. -/
def getVideoInfo (st : InfoState) (video_id : String) (cookie_mode : String)
    (now : ℚ) (authAvailable : Bool) (anon auth : Except String VideoInfo) :
    Except String VideoInfo × InfoState × List Attempt :=
  let mode := if cookie_mode == "off" || cookie_mode == "auto" || cookie_mode == "on"
    then cookie_mode else "auto"
  match cacheCheck (pyGet st.cache video_id) now with
  | some r => (r, st, [])
  | none => getVideoInfoMiss st video_id mode now authAvailable anon auth

/-! ## C7 — MP4 box prober (src/web/app.py `_parse_mp4_boxes`) -/

/-- One entry of the `boxes` list built by `_parse_mp4_boxes`.  The box type
is kept as the four raw bytes; the code decodes them as ASCII (with
replacement for invalid bytes) and compares against `'moov'`/`'sidx'`,
which matches those strings exactly when the bytes are the corresponding
ASCII codes. -/
structure MBox where
  btype : List Nat
  offset : Nat
  size : Nat
  deriving Repr, DecidableEq

/-- `struct.unpack` of `n` big-endian bytes of `data` starting at `off`
(only evaluated in-bounds by the parser; out-of-range bytes read as 0). -/
def readBE (data : List Nat) (off n : Nat) : Nat :=
  (List.range n).foldl (fun acc i => acc * 256 + data.getD (off + i) 0) 0

/-- `data[off : off+n]` as a Python slice. -/
def sliceBytes (data : List Nat) (off n : Nat) : List Nat :=
  (data.drop off).take n

/-- ASCII bytes of `'moov'`. -/
def moovBytes : List Nat := [0x6d, 0x6f, 0x6f, 0x76]

/-- ASCII bytes of `'sidx'`. -/
def sidxBytes : List Nat := [0x73, 0x69, 0x64, 0x78]

/-- The box size after the extended-size and rest-of-window adjustments
(src/web/app.py, lines 781-786): `size == 1` with 8 more header bytes in
the window reads a 64-bit size; otherwise `size == 0` means the box runs
to the end of the fetched window. -/
def headerSize (data : List Nat) (offset : Nat) : Nat :=
  let size0 := readBE data offset 4
  if size0 = 1 ∧ offset + 16 ≤ data.length then readBE data (offset + 8) 8
  else if size0 = 0 then data.length - offset
  else size0

/-- The `while offset < len(data) - 8` loop of `_parse_mp4_boxes`
(src/web/app.py, lines 780-790). -/
def scanBoxes (data : List Nat) (offset : Nat) : List MBox :=
  if _h : offset + 8 < data.length then
    if _hs : headerSize data offset < 8 then []
    else
      ⟨sliceBytes data (offset + 4) 4, offset, headerSize data offset⟩ ::
        scanBoxes data (offset + headerSize data offset)
  else []
termination_by data.length - offset
decreasing_by
  simp_wf
  omega

/-- The result dict of `_parse_mp4_boxes`; a missing key is `none`. -/
structure ParseResult where
  init_end : Option Nat := none
  index_start : Option Nat := none
  index_end : Option Nat := none
  deriving Repr, DecidableEq

/-- One iteration of the `for box in boxes` result loop
(src/web/app.py, lines 793-798). -/
def extractStep (r : ParseResult) (b : MBox) : ParseResult :=
  if b.btype = moovBytes then { r with init_end := some (b.offset + b.size - 1) }
  else if b.btype = sidxBytes then
    { r with index_start := some b.offset, index_end := some (b.offset + b.size - 1) }
  else r

/-- The `result` dict after the loop. -/
def extractRanges (boxes : List MBox) : ParseResult :=
  boxes.foldl extractStep {}

/-- `_parse_mp4_boxes` (src/web/app.py, lines 776-799). -/
def parseMp4Boxes (data : List Nat) : ParseResult :=
  extractRanges (scanBoxes data 0)

/-- The scanning discipline the (amended) claim describes, as a relation:
headers are read sequentially; the scan stops when fewer than 9 bytes of
window remain past the current offset (the code requires
`offset < len(data) - 8` strictly) or when the adjusted size is below 8;
otherwise it records the box and jumps to its end. -/
inductive ScanSpec (data : List Nat) : Nat → List MBox → Prop
  | stopWindow {off : Nat} (h : ¬ off + 8 < data.length) : ScanSpec data off []
  | stopMalformed {off : Nat} (h : off + 8 < data.length)
      (hs : headerSize data off < 8) : ScanSpec data off []
  | box {off : Nat} {bs : List MBox} (h : off + 8 < data.length)
      (hs : 8 ≤ headerSize data off)
      (ht : ScanSpec data (off + headerSize data off) bs) :
      ScanSpec data off
        (⟨sliceBytes data (off + 4) 4, off, headerSize data off⟩ :: bs)

/-! ## C9 — remote hub disconnect cleanup (src/web/routes/remote.py) -/

/-- `dict.pop(k, None)`: drop the key. -/
def pyPop {κ α : Type} [DecidableEq κ] (m : List (κ × α)) (k : κ) : List (κ × α) :=
  m.filter fun p => decide (p.1 ≠ k)

/-- The hub's module-level tables (src/web/routes/remote.py, lines 18-23).
WebSocket objects are identified by a numeric identity (Python `is`
compares object identity); cached player-state dicts are likewise opaque
payloads identified numerically. -/
structure HubState where
  connections : List (String × Nat)
  device_states : List (String × Nat)
  pairings : List (String × String)
  token_to_profile : List (String × Nat)
  token_to_name : List (String × String)
  last_position_save : List (String × ℚ)
  deriving Repr, DecidableEq

/-- A `_send_json` notification: recipient token and message type. -/
structure HubMsg where
  recipient : String
  mtype : String
  deriving Repr, DecidableEq

/-- `_cleanup_connection` (src/web/routes/remote.py, lines 92-129).  The
final position flush only writes to the external profiles_db store (its
`_last_position_save` pop is subsumed by the later pop of the same key);
notifications are returned as messages. -/
def cleanupConnection (st : HubState) (token : String) (old_ws : Nat) :
    HubState × List HubMsg :=
  if pyGet st.connections token ≠ some old_ws then (st, [])
  else
    let connections := pyPop st.connections token
    let remotes_to_notify := (st.pairings.filter fun p => p.2 = token).map (·.1)
    let pairings1 := st.pairings.filter fun p => ¬ p.2 = token
    let target := pyGet pairings1 token
    let pairings2 := pyPop pairings1 token
    let msgs1 := remotes_to_notify.filterMap fun r =>
      if (pyGet connections r).isSome then some ⟨r, "target_disconnected"⟩ else none
    let msgs2 := match target with
      | some t =>
          if (pyGet connections t).isSome then [⟨t, "remote_disconnected"⟩] else []
      | none => []
    ({ connections := connections
       device_states := pyPop st.device_states token
       pairings := pairings2
       token_to_profile := pyPop st.token_to_profile token
       token_to_name := pyPop st.token_to_name token
       last_position_save := pyPop st.last_position_save token },
     msgs1 ++ msgs2)

/-! ## C3 — at-most-one concurrent extraction (src/web/helpers.py `_info_lock`) -/

/-- Control point of one request thread running the cache-miss path of
`get_video_info` for one fixed uncached video id (src/web/helpers.py,
lines 216-234 and the extraction under the lock). -/
inductive TPC
  | start
  | waiting
  | holding
  | resolving
  | releasing (v : Nat)
  | finished (v : Nat)
  deriving Repr, DecidableEq

/-- Shared state of `n` concurrent requests: the `_info_cache` slot of the
video id, the owner of `_info_lock`, each thread's control point, and the
number of resolver (`extract_info`) invocations so far. -/
structure ExecState (n : Nat) where
  cache : Option Nat
  lock : Option (Fin n)
  pcs : Fin n → TPC
  resolveCount : Nat

/-- One interleaving step; `res` is the value the resolver returns.
`readHit`/`readMiss` are the unlocked cache check, `acquire` takes
`_info_lock`, `recheckHit`/`recheckMiss` are the double-checked re-read
under the lock, `resolve` is the resolver call plus cache write (all under
the lock), `release` leaves the `with _info_lock` block. -/
inductive HStep (res : Nat) {n : Nat} : ExecState n → ExecState n → Prop
  | readHit (s : ExecState n) (i : Fin n) (v : Nat) :
      s.pcs i = .start → s.cache = some v →
      HStep res s { s with pcs := Function.update s.pcs i (.finished v) }
  | readMiss (s : ExecState n) (i : Fin n) :
      s.pcs i = .start → s.cache = none →
      HStep res s { s with pcs := Function.update s.pcs i .waiting }
  | acquire (s : ExecState n) (i : Fin n) :
      s.pcs i = .waiting → s.lock = none →
      HStep res s
        { s with lock := some i, pcs := Function.update s.pcs i .holding }
  | recheckHit (s : ExecState n) (i : Fin n) (v : Nat) :
      s.pcs i = .holding → s.cache = some v →
      HStep res s { s with pcs := Function.update s.pcs i (.releasing v) }
  | recheckMiss (s : ExecState n) (i : Fin n) :
      s.pcs i = .holding → s.cache = none →
      HStep res s { s with pcs := Function.update s.pcs i .resolving }
  | resolve (s : ExecState n) (i : Fin n) :
      s.pcs i = .resolving →
      HStep res s
        { s with
            cache := some res
            resolveCount := s.resolveCount + 1
            pcs := Function.update s.pcs i (.releasing res) }
  | release (s : ExecState n) (i : Fin n) (v : Nat) :
      s.pcs i = .releasing v →
      HStep res s
        { s with lock := none, pcs := Function.update s.pcs i (.finished v) }

/-- All `n` requests arrive with the id uncached and the lock free. -/
def initExec (n : Nat) : ExecState n :=
  { cache := none, lock := none, pcs := fun _ => .start, resolveCount := 0 }

/-- States reachable by interleaving the `n` requests. -/
inductive ExecReach (res : Nat) {n : Nat} : ExecState n → Prop
  | init : ExecReach res (initExec n)
  | step {s t : ExecState n} : ExecReach res s → HStep res s t → ExecReach res t

/-- Control points inside the `with _info_lock` block. -/
def pcHolds : TPC → Prop
  | .holding => True
  | .resolving => True
  | .releasing _ => True
  | _ => False

/-- Thread `i` is inside the `with _info_lock` block. -/
def holdsLock {n : Nat} (s : ExecState n) (i : Fin n) : Prop :=
  pcHolds (s.pcs i)

/-- Inductive invariant of the double-checked-locking protocol. -/
def ExecInv (res : Nat) {n : Nat} (s : ExecState n) : Prop :=
  (∀ i, holdsLock s i → s.lock = some i) ∧
  (s.cache = none → s.resolveCount = 0) ∧
  (∀ v, s.cache = some v → v = res ∧ s.resolveCount = 1) ∧
  (∀ i, s.pcs i = .resolving → s.cache = none) ∧
  (∀ i v, s.pcs i = .releasing v → v = res ∧ s.cache = some res) ∧
  (∀ i v, s.pcs i = .finished v → v = res ∧ s.cache = some res)

/-- The `/api/info/{video_id}` endpoint handler
(src/web/routes/video.py, lines 136-186; the monolith copy is
src/web/app.py, lines 508-521): it builds a fresh `yt_dlp.YoutubeDL` and
calls `extract_info` directly — no cache read, no lock — so every call
invokes the resolver exactly once.  Returns the outcome and the number of
resolver invocations made by this call. -/
def infoEndpoint (resolve : String → Except String VideoInfo)
    (video_id : String) : Except String VideoInfo × Nat :=
  (resolve video_id, 1)

/-- Total resolver invocations across a batch of endpoint requests
(concurrent requests share no state in this handler, so the total is
independent of interleaving). -/
def infoEndpointBatchCalls (resolve : String → Except String VideoInfo)
    (reqs : List String) : Nat :=
  (reqs.map fun v => (infoEndpoint resolve v).2).sum

/-- A concrete single-thread run of the locked cache-miss path, used to
exhibit a complete execution: miss, acquire, re-check miss, resolve,
release. -/
def lockRun0 : ExecState 1 := initExec 1

def lockRun1 : ExecState 1 :=
  { lockRun0 with pcs := Function.update lockRun0.pcs 0 .waiting }

def lockRun2 : ExecState 1 :=
  { lockRun1 with lock := some 0, pcs := Function.update lockRun1.pcs 0 .holding }

def lockRun3 : ExecState 1 :=
  { lockRun2 with pcs := Function.update lockRun2.pcs 0 .resolving }

def lockRun4 : ExecState 1 :=
  { lockRun3 with
      cache := some 42
      resolveCount := lockRun3.resolveCount + 1
      pcs := Function.update lockRun3.pcs 0 (.releasing 42) }

def lockRun5 : ExecState 1 :=
  { lockRun4 with lock := none, pcs := Function.update lockRun4.pcs 0 (.finished 42) }

/-! ## Theorems -/

theorem pyGet_pySet_self {κ α : Type} [DecidableEq κ]
    (m : List (κ × α)) (k : κ) (v : α) : pyGet (pySet m k v) k = some v := by
  induction m with
  | nil => simp [pyGet, pySet]
  | cons p t ih =>
      obtain ⟨k', v'⟩ := p
      by_cases h : k' = k <;> simp [pyGet, pySet, h, ih]

theorem pyGet_pySet_ne {κ α : Type} [DecidableEq κ]
    (m : List (κ × α)) (k k' : κ) (v : α) (hk : k' ≠ k) :
    pyGet (pySet m k v) k' = pyGet m k' := by
  induction m with
  | nil => simp [pyGet, pySet, Ne.symm hk]
  | cons p t ih =>
      obtain ⟨k₀, v₀⟩ := p
      by_cases h : k₀ = k
      · subst h; simp [pyGet, pySet, Ne.symm hk]
      · by_cases h' : k₀ = k' <;> simp [pyGet, pySet, h, h', ih, hk]

theorem lexLe_refl (p : Bool × ℚ) : lexLe p p := Or.inr ⟨rfl, le_refl _⟩

theorem lexLt_imp_lexLe {p q : Bool × ℚ} (h : lexLt p q) : lexLe p q := by
  rcases h with h | ⟨h1, h2⟩
  · exact Or.inl h
  · exact Or.inr ⟨h1, le_of_lt h2⟩

theorem lexLe_trans {p q r : Bool × ℚ} (h1 : lexLe p q) (h2 : lexLe q r) :
    lexLe p r := by
  obtain ⟨a, x⟩ := p
  obtain ⟨b, y⟩ := q
  obtain ⟨c, z⟩ := r
  simp only [lexLe] at h1 h2 ⊢
  rcases h1 with ⟨ha, hb⟩ | ⟨hab, hxy⟩ <;> rcases h2 with ⟨hb', hc⟩ | ⟨hbc, hyz⟩
  · exact Bool.noConfusion (hb.symm.trans hb')
  · exact Or.inl ⟨ha, hbc ▸ hb⟩
  · exact Or.inl ⟨hab.trans hb', hc⟩
  · exact Or.inr ⟨hab.trans hbc, le_trans hxy hyz⟩

theorem not_lexLt_imp_lexLe {p q : Bool × ℚ} (h : ¬ lexLt p q) : lexLe q p := by
  obtain ⟨a, x⟩ := p
  obtain ⟨b, y⟩ := q
  simp only [lexLt, not_or, not_and] at h
  simp only [lexLe]
  by_cases hab : a = b
  · have hyx : ¬ x < y := fun hlt => h.2 hab hlt
    exact Or.inr ⟨hab.symm, not_lt.mp hyx⟩
  · cases a <;> cases b
    · exact absurd rfl hab
    · exact absurd rfl (h.1 rfl)
    · exact Or.inl ⟨rfl, rfl⟩
    · exact absurd rfl hab

theorem lexLe_antisymm_parts {p q : Bool × ℚ} (h1 : lexLe p q) (h2 : lexLe q p) :
    p.1 = q.1 ∧ p.2 = q.2 := by
  obtain ⟨a, x⟩ := p
  obtain ⟨b, y⟩ := q
  simp only [lexLe] at h1 h2
  rcases h1 with ⟨ha, hb⟩ | ⟨hab, hxy⟩ <;> rcases h2 with ⟨hb', ha'⟩ | ⟨hba, hyx⟩
  · exact Bool.noConfusion (hb.symm.trans hb')
  · exact Bool.noConfusion (hb.symm.trans (hba.trans ha))
  · exact Bool.noConfusion (ha'.symm.trans (hab.trans hb'))
  · exact ⟨hab, le_antisymm hxy hyx⟩

theorem dedupReplaces_iff (f e : VFmt) : dedupReplaces f e = true ↔ keyLt e f := by
  unfold dedupReplaces keyLt lexLt bkey
  cases he : isAvc1 e <;> cases hf : isAvc1 f <;> simp [he, hf]

theorem keyLe_refl (f : VFmt) : keyLe f f := lexLe_refl _

theorem keyLt_imp_keyLe {e f : VFmt} (h : keyLt e f) : keyLe e f :=
  lexLt_imp_lexLe h

theorem keyLe_trans {a b c : VFmt} (hab : keyLe a b) (hbc : keyLe b c) :
    keyLe a c := lexLe_trans hab hbc

theorem not_keyLt_imp_keyLe {e f : VFmt} (h : ¬ keyLt e f) : keyLe f e :=
  not_lexLt_imp_lexLe h

theorem keyLe_antisymm_parts {a b : VFmt} (h1 : keyLe a b) (h2 : keyLe b a) :
    isAvc1 a = isAvc1 b ∧ tbr0 a = tbr0 b :=
  lexLe_antisymm_parts h1 h2

theorem keyLe_parts {g m : VFmt} (h : keyLe g m) :
    (isAvc1 g = false ∧ isAvc1 m = true) ∨
    (isAvc1 g = isAvc1 m ∧ tbr0 g ≤ tbr0 m) := h

theorem stepAt_none {h : Nat} {acc : Option VFmt} {f : VFmt}
    (hs : stepAt h acc f = none) : acc = none ∧ f.height ≠ h := by
  by_cases hh : f.height = h
  · cases acc with
    | none => simp [stepAt, hh] at hs
    | some e =>
        by_cases hr : dedupReplaces f e = true <;> simp [stepAt, hh, hr] at hs
  · refine ⟨?_, hh⟩
    simpa [stepAt, hh] using hs

theorem stepAt_some_src {h : Nat} {acc : Option VFmt} {f m : VFmt}
    (hs : stepAt h acc f = some m) :
    acc = some m ∨ (m = f ∧ f.height = h) := by
  by_cases hh : f.height = h
  · cases acc with
    | none =>
        have hfm : f = m := by simpa [stepAt, hh] using hs
        exact Or.inr ⟨hfm.symm, hh⟩
    | some e =>
        by_cases hr : dedupReplaces f e = true
        · have hfm : f = m := by simpa [stepAt, hh, hr] using hs
          exact Or.inr ⟨hfm.symm, hh⟩
        · have hem : e = m := by simpa [stepAt, hh, hr] using hs
          exact Or.inl (by rw [hem])
  · exact Or.inl (by simpa [stepAt, hh] using hs)

theorem stepAt_mono {h : Nat} {f a : VFmt} :
    ∃ b, stepAt h (some a) f = some b ∧ keyLe a b := by
  by_cases hh : f.height = h
  · by_cases hr : dedupReplaces f a = true
    · exact ⟨f, by simp [stepAt, hh, hr],
        keyLt_imp_keyLe ((dedupReplaces_iff f a).mp hr)⟩
    · exact ⟨a, by simp [stepAt, hh, hr], keyLe_refl a⟩
  · exact ⟨a, by simp [stepAt, hh], keyLe_refl a⟩

theorem stepAt_absorbs {h : Nat} (acc : Option VFmt) {f : VFmt}
    (hh : f.height = h) :
    ∃ b, stepAt h acc f = some b ∧ keyLe f b := by
  cases acc with
  | none => exact ⟨f, by simp [stepAt, hh], keyLe_refl f⟩
  | some e =>
      by_cases hr : dedupReplaces f e = true
      · exact ⟨f, by simp [stepAt, hh, hr], keyLe_refl f⟩
      · refine ⟨e, by simp [stepAt, hh, hr], ?_⟩
        exact not_keyLt_imp_keyLe (fun hlt =>
          hr ((dedupReplaces_iff f e).mpr hlt))

theorem bestAtFold_spec (h : Nat) (l : List VFmt) :
    ∀ acc : Option VFmt,
      (l.foldl (stepAt h) acc = none → acc = none ∧ ∀ g ∈ l, g.height ≠ h) ∧
      (∀ m, l.foldl (stepAt h) acc = some m →
        (acc = some m ∨ (m ∈ l ∧ m.height = h)) ∧
        (∀ a, acc = some a → keyLe a m) ∧
        (∀ g ∈ l, g.height = h → keyLe g m)) := by
  induction l with
  | nil =>
      intro acc
      refine ⟨fun hn => ⟨hn, by simp⟩, fun m hm => ?_⟩
      simp only [List.foldl_nil] at hm
      refine ⟨Or.inl hm, fun a ha => ?_, by simp⟩
      obtain rfl : a = m := Option.some_inj.mp (ha.symm.trans hm)
      exact keyLe_refl a
  | cons f t ih =>
      intro acc
      have hfold : (f :: t).foldl (stepAt h) acc = t.foldl (stepAt h) (stepAt h acc f) := by
        simp [List.foldl_cons]
      constructor
      · intro hn
        rw [hfold] at hn
        obtain ⟨hstep, hrest⟩ := (ih (stepAt h acc f)).1 hn
        obtain ⟨hacc, hf⟩ := stepAt_none hstep
        exact ⟨hacc, by
          intro g hg
          rcases List.mem_cons.mp hg with rfl | hg'
          · exact hf
          · exact hrest g hg'⟩
      · intro m hm
        rw [hfold] at hm
        obtain ⟨hsrc, hacc', hall⟩ := (ih (stepAt h acc f)).2 m hm
        refine ⟨?_, ?_, ?_⟩
        · rcases hsrc with hstep | ⟨hmem, hht⟩
          · rcases stepAt_some_src hstep with ha | ⟨rfl, hht⟩
            · exact Or.inl ha
            · exact Or.inr ⟨List.mem_cons_self _ _, hht⟩
          · exact Or.inr ⟨List.mem_cons_of_mem _ hmem, hht⟩
        · intro a ha
          obtain ⟨b, hb, hab⟩ := stepAt_mono (h := h) (f := f) (a := a)
          exact keyLe_trans hab (hacc' b (by rw [ha]; exact hb))
        · intro g hg hgh
          rcases List.mem_cons.mp hg with rfl | hg'
          · obtain ⟨b, hb, hgb⟩ := stepAt_absorbs acc hgh
            exact keyLe_trans hgb (hacc' b hb)
          · exact hall g hg' hgh

theorem bestAt_none_of_no_height {h : Nat} {l : List VFmt}
    (hl : ∀ g ∈ l, g.height ≠ h) : bestAt h l = none := by
  unfold bestAt
  induction l with
  | nil => rfl
  | cons f t ih =>
      have hf : f.height ≠ h := hl f (List.mem_cons_self _ _)
      have : stepAt h none f = none := by simp [stepAt, hf]
      simpa [List.foldl_cons, this] using
        ih (fun g hg => hl g (List.mem_cons_of_mem _ hg))

theorem pyGet_bestVideoStep (m : List (Nat × VFmt)) (f : VFmt) (h : Nat) :
    pyGet (bestVideoStep m f) h = stepAt h (pyGet m h) f := by
  by_cases hh : f.height = h
  · subst hh
    cases hc : pyGet m f.height with
    | none => simp [bestVideoStep, stepAt, hc, pyGet_pySet_self]
    | some e =>
        by_cases hr : dedupReplaces f e <;>
          simp [bestVideoStep, stepAt, hc, hr, pyGet_pySet_self]
  · cases hc : pyGet m f.height with
    | none => simp [bestVideoStep, stepAt, hc, hh, pyGet_pySet_ne m f.height h f (Ne.symm hh)]
    | some e =>
        by_cases hr : dedupReplaces f e <;>
          simp [bestVideoStep, stepAt, hc, hr, hh,
            pyGet_pySet_ne m f.height h f (Ne.symm hh)]

theorem selectedAt_eq_bestAt (l : List VFmt) (h : Nat) :
    selectedAt l h = bestAt h l := by
  have key : ∀ (l : List VFmt) (m : List (Nat × VFmt)),
      pyGet (l.foldl bestVideoStep m) h = l.foldl (stepAt h) (pyGet m h) := by
    intro l
    induction l with
    | nil => intro m; rfl
    | cons f t ih =>
        intro m
        simp only [List.foldl_cons]
        rw [ih (bestVideoStep m f), pyGet_bestVideoStep]
  simpa [selectedAt, bestVideo, bestAt, pyGet] using key l []

theorem selectedAt_selSpec {l : List VFmt} {h : Nat} {m : VFmt}
    (hm : selectedAt l h = some m) : SelSpec l h m := by
  rw [selectedAt_eq_bestAt] at hm
  obtain ⟨hsrc, _, hall⟩ := (bestAtFold_spec h l none).2 m hm
  rcases hsrc with hx | ⟨hmem, hht⟩
  · cases hx
  · exact ⟨hmem, hht, hall⟩

theorem selectedAt_none_iff {l : List VFmt} {h : Nat} :
    selectedAt l h = none ↔ ∀ g ∈ l, g.height ≠ h := by
  rw [selectedAt_eq_bestAt]
  constructor
  · intro hn
    exact ((bestAtFold_spec h l none).1 hn).2
  · exact bestAt_none_of_no_height

theorem selSpec_unique {l : List VFmt} {h : Nat} {m₁ m₂ : VFmt}
    (hnt : NoTies l) (h1 : SelSpec l h m₁) (h2 : SelSpec l h m₂) : m₁ = m₂ := by
  obtain ⟨hm1, hh1, hall1⟩ := h1
  obtain ⟨hm2, hh2, hall2⟩ := h2
  have hle12 : keyLe m₁ m₂ := hall2 m₁ hm1 hh1
  have hle21 : keyLe m₂ m₁ := hall1 m₂ hm2 hh2
  obtain ⟨hfam, htbr⟩ := keyLe_antisymm_parts hle12 hle21
  exact hnt m₁ hm1 m₂ hm2 (hh1.trans hh2.symm) hfam htbr

/-- C4 (amended): at every height the dedup keeps a format that is H.264
(`avc1`) whenever any H.264 candidate exists at that height, and whose
effective bitrate dominates every same-codec-family candidate at that
height; and provided no two distinct candidates at the same height tie on
codec family and bitrate, re-running the selection on any permutation of
the input list selects the same representation at every height.  (As
stated the claim fails: on an exact bitrate tie the first-listed format
wins, so permutations can change the selected representation —
`c4_dash_dedup_counterexample`.) -/
theorem c4_dash_dedup_selection (l : List VFmt) (h : Nat) :
    (∀ m, selectedAt l h = some m → ∀ g ∈ l, g.height = h →
      (isAvc1 g = true → isAvc1 m = true) ∧
      (isAvc1 g = isAvc1 m → tbr0 g ≤ tbr0 m)) ∧
    (NoTies l → ∀ l', l.Perm l' → selectedAt l' h = selectedAt l h) := by
  constructor
  · intro m hm g hg hgh
    have hle := keyLe_parts ((selectedAt_selSpec hm).2.2 g hg hgh)
    constructor
    · intro hga
      rcases hle with ⟨h1, _⟩ | ⟨h1, _⟩
      · exact Bool.noConfusion (hga.symm.trans h1)
      · exact h1 ▸ hga
    · intro hfam
      rcases hle with ⟨h1, h2⟩ | ⟨_, h2⟩
      · exact Bool.noConfusion (h1.symm.trans (hfam.trans h2))
      · exact h2
  · intro hnt l' hp
    have hmem : ∀ g, g ∈ l' ↔ g ∈ l := fun g => hp.mem_iff.symm
    cases hsel : selectedAt l h with
    | none =>
        have hno : ∀ g ∈ l, g.height ≠ h := selectedAt_none_iff.mp hsel
        exact selectedAt_none_iff.mpr (fun g hg => hno g ((hmem g).mp hg))
    | some m =>
        have hspec : SelSpec l h m := selectedAt_selSpec hsel
        have hspec' : SelSpec l' h m :=
          ⟨(hmem m).mpr hspec.1, hspec.2.1,
            fun g hg hgh => hspec.2.2 g ((hmem g).mp hg) hgh⟩
        have hnt' : NoTies l' := fun f hf g hg =>
          hnt f ((hmem f).mp hf) g ((hmem g).mp hg)
        cases hsel' : selectedAt l' h with
        | none =>
            exact absurd hspec'.2.1 (selectedAt_none_iff.mp hsel' m hspec'.1)
        | some m' =>
            have hspec'' : SelSpec l' h m' := selectedAt_selSpec hsel'
            rw [selSpec_unique hnt' hspec'' hspec']

/-- C4 witness: with an H.264 720p format and a higher-bitrate AV1 720p
format, the dedup keeps the H.264 one, and swapping the input order keeps
the very same selection. -/
theorem c4_dash_dedup_selection_witness :
    selectedAt [⟨"137", "uA", 720, "avc1.64001f", some 500⟩,
        ⟨"398", "uB", 720, "av01.0.08M.08", some 900⟩] 720 =
      some ⟨"137", "uA", 720, "avc1.64001f", some 500⟩ ∧
    isAvc1 (⟨"137", "uA", 720, "avc1.64001f", some 500⟩ : VFmt) = true ∧
    selectedAt [⟨"398", "uB", 720, "av01.0.08M.08", some 900⟩,
        ⟨"137", "uA", 720, "avc1.64001f", some 500⟩] 720 =
      some ⟨"137", "uA", 720, "avc1.64001f", some 500⟩ := by
  have hsel : selectedAt [(⟨"137", "uA", 720, "avc1.64001f", some 500⟩ : VFmt),
      ⟨"398", "uB", 720, "av01.0.08M.08", some 900⟩] 720 =
      some ⟨"137", "uA", 720, "avc1.64001f", some 500⟩ := by decide
  have hnt : NoTies [(⟨"137", "uA", 720, "avc1.64001f", some 500⟩ : VFmt),
      ⟨"398", "uB", 720, "av01.0.08M.08", some 900⟩] := by
    unfold NoTies
    decide
  have hperm : List.Perm
      [(⟨"137", "uA", 720, "avc1.64001f", some 500⟩ : VFmt),
        ⟨"398", "uB", 720, "av01.0.08M.08", some 900⟩]
      [⟨"398", "uB", 720, "av01.0.08M.08", some 900⟩,
        ⟨"137", "uA", 720, "avc1.64001f", some 500⟩] :=
    List.Perm.swap _ _ _
  refine ⟨hsel, ?_, ?_⟩
  · exact ((c4_dash_dedup_selection _ 720).1 _ hsel
      ⟨"137", "uA", 720, "avc1.64001f", some 500⟩ (by simp) rfl).1 rfl
  · rw [(c4_dash_dedup_selection _ 720).2 hnt _ hperm, hsel]

/-- C4 counterexample: two distinct H.264 720p formats with identical
bitrate — the selection keeps whichever is listed first, so permuting the
same input set changes the selected representation, refuting the claimed
order-independence. -/
theorem c4_dash_dedup_counterexample :
    List.Perm [(⟨"dupA", "uA", 720, "avc1.64001f", some 1000⟩ : VFmt),
        ⟨"dupB", "uB", 720, "avc1.64001f", some 1000⟩]
      [⟨"dupB", "uB", 720, "avc1.64001f", some 1000⟩,
        ⟨"dupA", "uA", 720, "avc1.64001f", some 1000⟩] ∧
    selectedAt [⟨"dupA", "uA", 720, "avc1.64001f", some 1000⟩,
        ⟨"dupB", "uB", 720, "avc1.64001f", some 1000⟩] 720 ≠
      selectedAt [⟨"dupB", "uB", 720, "avc1.64001f", some 1000⟩,
        ⟨"dupA", "uA", 720, "avc1.64001f", some 1000⟩] 720 := by
  exact ⟨List.Perm.swap _ _ _, by decide⟩

/-! ## Claim theorems -/

/-- C10: whenever no app password is stored (first-run state), `verify_session`
and `require_auth` accept every request unconditionally — any cookie (or no
cookie at all) and any session table pass the gate. -/
theorem c10_no_password_accepts_all (cookie : Option String)
    (get_session : String → Option Nat) :
    verify_session none cookie get_session = true ∧
    require_auth none cookie get_session = .ok := by
  constructor <;> rfl

/-- C8: for a state message carrying a video id and a nonzero `currentTime`,
not suppressed by the 5-second throttle and from a profile-bound token:
near the end (`duration > 0` and within 30 s of it or past 95 % of it)
position 0 is persisted; otherwise `round(currentTime, 1)` is persisted
exactly when `currentTime > 5`, and nothing is persisted when
`currentTime ≤ 5`. -/
theorem c8_position_save_policy (pid : Nat) (st : PlayerState) (now last_save : ℚ)
    (hpid : pid ≠ 0) (hvid : st.videoId ≠ "") (hct : st.currentTime ≠ 0)
    (hthr : 5 ≤ now - last_save) :
    (st.duration > 0 ∧
        (st.currentTime > st.duration - 30 ∨ st.currentTime / st.duration > 95/100) →
      savePositionFromState (some pid) st now last_save = (.clear, some now)) ∧
    (¬(st.duration > 0 ∧
        (st.currentTime > st.duration - 30 ∨ st.currentTime / st.duration > 95/100)) →
      st.currentTime > 5 →
      savePositionFromState (some pid) st now last_save =
        (.save (pyRound1 st.currentTime), some now)) ∧
    (¬(st.duration > 0 ∧
        (st.currentTime > st.duration - 30 ∨ st.currentTime / st.duration > 95/100)) →
      st.currentTime ≤ 5 →
      savePositionFromState (some pid) st now last_save = (.nothing, some now)) := by
  have h1 : ¬ ((some pid).getD 0 = 0) := by simpa using hpid
  have h2 : ¬ (st.videoId = "" ∨ st.currentTime = 0) := by tauto
  have h3 : ¬ (now - last_save < 5) := not_lt.mpr hthr
  refine ⟨fun hnear => ?_, fun hfar hgt => ?_, fun hfar hle => ?_⟩
  · simp only [savePositionFromState, if_neg h1, if_neg h2, if_neg h3, if_pos hnear]
  · simp only [savePositionFromState, if_neg h1, if_neg h2, if_neg h3, if_neg hfar,
      if_pos hgt]
  · simp only [savePositionFromState, if_neg h1, if_neg h2, if_neg h3, if_neg hfar,
      if_neg (not_lt.mpr hle)]

/-- C8 witness: the spec's own vector — `currentTime = 295`, `duration = 300`
(98 % complete) persists position 0, not 295. -/
theorem c8_position_save_policy_witness :
    savePositionFromState (some 1)
      { videoId := "abc", currentTime := 295, duration := 300 } 100 0 =
      (.clear, some 100) := by
  have h := c8_position_save_policy 1
      { videoId := "abc", currentTime := 295, duration := 300 } 100 0
      (by decide) (by decide) (by norm_num) (by norm_num)
  exact h.1 (by norm_num)

/-- C6: for every upstream response observed by the range proxy, when the
upstream status is below 400 the proxy streams the body and answers 206
exactly when upstream answered 206 (200 otherwise); when the upstream status
is 400 or greater the client gets an error response carrying that very
status and no body bytes are streamed. -/
theorem c6_proxy_status_passthrough (u : UpstreamResponse) :
    (u.status < 400 →
      ((proxyRangeRequest u).clientStatus = 206 ↔ u.status = 206) ∧
      (u.status ≠ 206 → (proxyRangeRequest u).clientStatus = 200) ∧
      (proxyRangeRequest u).streamsBody = true) ∧
    (400 ≤ u.status →
      proxyRangeRequest u = .httpError u.status ∧
      (proxyRangeRequest u).streamsBody = false) := by
  constructor
  · intro hlt
    have h4 : ¬ (400 ≤ u.status) := not_le.mpr hlt
    by_cases h206 : u.status = 206 <;>
      simp [proxyRangeRequest, ProxyResult.clientStatus, ProxyResult.streamsBody,
        h4, h206]
  · intro hge
    simp [proxyRangeRequest, ProxyResult.clientStatus, ProxyResult.streamsBody, hge]

/-- C6 witness: a 206 upstream yields a streamed 206; a 404 upstream yields
an unstreamed 404 error. -/
theorem c6_proxy_status_passthrough_witness :
    (proxyRangeRequest ⟨206, none, some "bytes 0-99/1000", some "100"⟩).clientStatus
      = 206 ∧
    proxyRangeRequest ⟨404, none, none, none⟩ = .httpError 404 ∧
    (proxyRangeRequest ⟨404, none, none, none⟩).streamsBody = false := by
  refine ⟨?_, ?_, ?_⟩
  · exact ((c6_proxy_status_passthrough
      ⟨206, none, some "bytes 0-99/1000", some "100"⟩).1 (by norm_num)).1.mpr rfl
  · exact ((c6_proxy_status_passthrough ⟨404, none, none, none⟩).2 (by norm_num)).1
  · exact ((c6_proxy_status_passthrough ⟨404, none, none, none⟩).2 (by norm_num)).2

/-- C5: while a cache entry for a video id is younger than the 5-hour TTL,
every DASH manifest request for that id — whatever its quality parameter —
returns the byte-identical cached MPD text, performs no build, and leaves
the cache unchanged; once the entry is at least 5 hours old, the request
runs a fresh build, and on success stores its output with the current
timestamp. -/
theorem c5_dash_cache_ttl (cache : List (String × DashEntry)) (video_id : String)
    (now : ℚ) (build : Nat → Except String String) (e : DashEntry)
    (he : pyGet cache video_id = some e) :
    (now - e.created < DASH_CACHE_TTL →
      ∀ q, getDashManifest cache video_id q now build = (.ok e.mpd, cache, false)) ∧
    (DASH_CACHE_TTL ≤ now - e.created →
      ∀ q, (getDashManifest cache video_id q now build).2.2 = true ∧
        ∀ mpd, build q = .ok mpd →
          getDashManifest cache video_id q now build =
            (.ok mpd, pySet cache video_id ⟨mpd, now⟩, true)) := by
  constructor
  · intro hfresh q
    simp [getDashManifest, he, hfresh]
  · intro hold q
    have hnot : ¬ (now - e.created < DASH_CACHE_TTL) := not_lt.mpr hold
    constructor
    · cases hb : build q <;> simp [getDashManifest, he, hnot, hb]
    · intro mpd hb
      simp [getDashManifest, he, hnot, hb]

/-- C5 witness: with a cached entry created at time 0, a request at time 100
(with a different quality) returns the cached text unchanged, and a request
at time 20000 (past the 18000-second TTL) rebuilds and restores. -/
theorem c5_dash_cache_ttl_witness :
    getDashManifest [("vid", ⟨"MPD-A", 0⟩)] "vid" 720 100 (fun _ => .ok "MPD-B") =
      (.ok "MPD-A", [("vid", ⟨"MPD-A", 0⟩)], false) ∧
    getDashManifest [("vid", ⟨"MPD-A", 0⟩)] "vid" 1080 20000 (fun _ => .ok "MPD-B") =
      (.ok "MPD-B", [("vid", ⟨"MPD-B", 20000⟩)], true) := by
  have h := c5_dash_cache_ttl [("vid", ⟨"MPD-A", 0⟩)] "vid" 100
      (fun _ => .ok "MPD-B") ⟨"MPD-A", 0⟩ (by rfl)
  have h2 := c5_dash_cache_ttl [("vid", ⟨"MPD-A", 0⟩)] "vid" 20000
      (fun _ => .ok "MPD-B") ⟨"MPD-A", 0⟩ (by rfl)
  refine ⟨h.1 (by norm_num [DASH_CACHE_TTL]) 720, ?_⟩
  have h3 := (h2.2 (by norm_num [DASH_CACHE_TTL]) 1080).2 "MPD-B" rfl
  simpa [pySet] using h3

theorem scanBoxes_scanSpec (data : List Nat) (off : Nat) :
    ScanSpec data off (scanBoxes data off) := by
  have key : ∀ n off, data.length - off ≤ n → ScanSpec data off (scanBoxes data off) := by
    intro n
    induction n with
    | zero =>
        intro off hle
        have h : ¬ off + 8 < data.length := by omega
        rw [scanBoxes]
        simp only [dif_neg h]
        exact ScanSpec.stopWindow h
    | succ n ih =>
        intro off hle
        rw [scanBoxes]
        by_cases h : off + 8 < data.length
        · by_cases hs : headerSize data off < 8
          · simp only [dif_pos h, dif_pos hs]
            exact ScanSpec.stopMalformed h hs
          · simp only [dif_pos h, dif_neg hs]
            refine ScanSpec.box h (not_lt.mp hs) ?_
            refine ih (off + headerSize data off) ?_
            have h8 : 8 ≤ headerSize data off := not_lt.mp hs
            omega
        · simp only [dif_neg h]
          exact ScanSpec.stopWindow h
  exact key data.length off (by omega)

theorem sidx_ne_moov : sidxBytes ≠ moovBytes := by decide

theorem moov_ne_sidx : moovBytes ≠ sidxBytes := by decide

theorem moov_beq_sidx_false : (moovBytes == sidxBytes) = false := by decide

theorem sidx_beq_moov_false : (sidxBytes == moovBytes) = false := by decide

theorem extractRanges_fold_init_end (bs : List MBox) :
    ∀ r : ParseResult, (bs.foldl extractStep r).init_end =
      match bs.reverse.find? (fun b => b.btype == moovBytes) with
      | some b => some (b.offset + b.size - 1)
      | none => r.init_end := by
  induction bs with
  | nil => intro r; rfl
  | cons b t ih =>
      intro r
      simp only [List.foldl_cons, List.reverse_cons]
      rw [ih (extractStep r b), List.find?_append]
      rcases hf : t.reverse.find? (fun b => b.btype == moovBytes) with _ | b' <;> rw [hf]
      · by_cases hb : b.btype = moovBytes
        · simp [List.find?, hb, extractStep]
        · have hbb : (b.btype == moovBytes) = false := beq_eq_false_iff_ne.mpr hb
          by_cases hb2 : b.btype = sidxBytes <;>
            simp [List.find?, hb, hb2, hbb, extractStep, sidx_ne_moov,
              sidx_beq_moov_false]
      · simp [Option.or]

theorem extractRanges_fold_index_start (bs : List MBox) :
    ∀ r : ParseResult, (bs.foldl extractStep r).index_start =
      match bs.reverse.find? (fun b => b.btype == sidxBytes) with
      | some b => some b.offset
      | none => r.index_start := by
  induction bs with
  | nil => intro r; rfl
  | cons b t ih =>
      intro r
      simp only [List.foldl_cons, List.reverse_cons]
      rw [ih (extractStep r b), List.find?_append]
      rcases hf : t.reverse.find? (fun b => b.btype == sidxBytes) with _ | b' <;> rw [hf]
      · by_cases hb : b.btype = sidxBytes
        · have hb2 : ¬ b.btype = moovBytes := by
            rw [hb]; decide
          simp [List.find?, hb, hb2, extractStep, sidx_ne_moov]
        · have hbb : (b.btype == sidxBytes) = false := beq_eq_false_iff_ne.mpr hb
          by_cases hb2 : b.btype = moovBytes <;>
            simp [List.find?, hb, hb2, hbb, extractStep, moov_beq_sidx_false]
      · simp [Option.or]

theorem extractRanges_fold_index_end (bs : List MBox) :
    ∀ r : ParseResult, (bs.foldl extractStep r).index_end =
      match bs.reverse.find? (fun b => b.btype == sidxBytes) with
      | some b => some (b.offset + b.size - 1)
      | none => r.index_end := by
  induction bs with
  | nil => intro r; rfl
  | cons b t ih =>
      intro r
      simp only [List.foldl_cons, List.reverse_cons]
      rw [ih (extractStep r b), List.find?_append]
      rcases hf : t.reverse.find? (fun b => b.btype == sidxBytes) with _ | b' <;> rw [hf]
      · by_cases hb : b.btype = sidxBytes
        · have hb2 : ¬ b.btype = moovBytes := by
            rw [hb]; decide
          simp [List.find?, hb, hb2, extractStep, sidx_ne_moov]
        · have hbb : (b.btype == sidxBytes) = false := beq_eq_false_iff_ne.mpr hb
          by_cases hb2 : b.btype = moovBytes <;>
            simp [List.find?, hb, hb2, hbb, extractStep, moov_beq_sidx_false]
      · simp [Option.or]

/-- C7 (amended): the box scan of `_parse_mp4_boxes` reads 4-byte
big-endian size plus 4-byte type headers sequentially from offset 0,
applying the `size == 1` (64-bit extended size) and `size == 0` (rest of
the fetched window) rules, stopping as soon as an adjusted size is below 8
or fewer than nine bytes of window remain past the current offset (the
code's guard is strictly `offset < len(data) - 8`, so a header ending
exactly at the window boundary is not read — this is the one correction to
the claim); it always terminates (`scanBoxes` is total), and the result
carries `init_end` = end offset of the last `moov` box scanned,
`index_start`/`index_end` = start and end offsets of the last `sidx` box
scanned, each key omitted (`none`) when no such box was scanned. -/
theorem c7_mp4_box_scan (data : List Nat) :
    ScanSpec data 0 (scanBoxes data 0) ∧
    (parseMp4Boxes data).init_end =
      ((scanBoxes data 0).reverse.find? (fun b => b.btype == moovBytes)).map
        (fun b => b.offset + b.size - 1) ∧
    (parseMp4Boxes data).index_start =
      ((scanBoxes data 0).reverse.find? (fun b => b.btype == sidxBytes)).map
        (fun b => b.offset) ∧
    (parseMp4Boxes data).index_end =
      ((scanBoxes data 0).reverse.find? (fun b => b.btype == sidxBytes)).map
        (fun b => b.offset + b.size - 1) := by
  refine ⟨scanBoxes_scanSpec data 0, ?_, ?_, ?_⟩
  · rw [parseMp4Boxes, extractRanges, extractRanges_fold_init_end]
    rcases hfind : (scanBoxes data 0).reverse.find? (fun b => b.btype == moovBytes)
      with _ | b <;> rw [hfind] <;> rfl
  · rw [parseMp4Boxes, extractRanges, extractRanges_fold_index_start]
    rcases hfind : (scanBoxes data 0).reverse.find? (fun b => b.btype == sidxBytes)
      with _ | b <;> rw [hfind] <;> rfl
  · rw [parseMp4Boxes, extractRanges, extractRanges_fold_index_end]
    rcases hfind : (scanBoxes data 0).reverse.find? (fun b => b.btype == sidxBytes)
      with _ | b <;> rw [hfind] <;> rfl

/-- C7 counterexample: an 8-byte window holding exactly one well-formed
`sidx` box (declared size 8, lying entirely inside the window — its header
does not run past the window end, and its size is not below 8).  The
claim's stop rule would read the header and report `index_start = 0`, but
the code's strict `offset < len(data) - 8` guard never reads it, so the
`index_start` key is omitted. -/
theorem c7_mp4_box_scan_counterexample :
    readBE [0, 0, 0, 8, 0x73, 0x69, 0x64, 0x78] 0 4 = 8 ∧
    sliceBytes [0, 0, 0, 8, 0x73, 0x69, 0x64, 0x78] 4 4 = sidxBytes ∧
    0 + 8 ≤ [0, 0, 0, 8, 0x73, 0x69, 0x64, 0x78].length ∧
    (parseMp4Boxes [0, 0, 0, 8, 0x73, 0x69, 0x64, 0x78]).index_start = none := by
  refine ⟨by decide, by decide, by decide, ?_⟩
  have hscan : scanBoxes [0, 0, 0, 8, 0x73, 0x69, 0x64, 0x78] 0 = [] := by
    rw [scanBoxes]
    norm_num
  rw [parseMp4Boxes, hscan]
  rfl

theorem getVideoInfo_hit {st : InfoState} {video_id cookie_mode : String}
    {now : ℚ} {authAvailable : Bool} {anon auth : Except String VideoInfo} {r}
    (hcc : cacheCheck (pyGet st.cache video_id) now = some r) :
    getVideoInfo st video_id cookie_mode now authAvailable anon auth = (r, st, []) := by
  simp [getVideoInfo, hcc]

theorem getVideoInfo_auto_miss {st : InfoState} {video_id : String}
    {now : ℚ} {authAvailable : Bool} {anon auth : Except String VideoInfo}
    (hcc : cacheCheck (pyGet st.cache video_id) now = none) :
    getVideoInfo st video_id "auto" now authAvailable anon auth =
      getVideoInfoMiss st video_id "auto" now authAvailable anon auth := by
  simp [getVideoInfo, hcc]

theorem getVideoInfoMiss_auto_authFirst (st : InfoState) (video_id : String)
    (now : ℚ) (anon auth : Except String VideoInfo)
    (hflag : ((pyGet st.cache video_id).elim false InfoEntry.ageRestricted
      || decide (now < st.throttled_until)) = true) :
    getVideoInfoMiss st video_id "auto" now true anon auth =
      match auth with
      | .ok p =>
          (.ok p, { st with cache := pySet st.cache video_id (.info p now
            ((pyGet st.cache video_id).elim false InfoEntry.ageRestricted)) }, [.auth])
      | .error e =>
          (.error e, { st with cache := pySet st.cache video_id (.err e now) },
            [.auth]) := by
  have h1 : (("auto" : String) == "on") = false := by decide
  have h2 : (("auto" : String) == "auto") = true := by decide
  simp only [getVideoInfoMiss, h1, h2, Bool.false_and, Bool.true_and, Bool.and_true,
    hflag, if_false, if_true, Bool.false_eq_true, ite_false, ite_true]

theorem getVideoInfoMiss_auto_anonFirst (st : InfoState) (video_id : String)
    (now : ℚ) (anon auth : Except String VideoInfo)
    (hflag : ((pyGet st.cache video_id).elim false InfoEntry.ageRestricted
      || decide (now < st.throttled_until)) = false) :
    getVideoInfoMiss st video_id "auto" now true anon auth =
      match anon with
      | .ok p =>
          (.ok p, { st with cache := pySet st.cache video_id (.info p now false) },
            [.anon])
      | .error e =>
          if isAgeRestricted e || isThrottled e then
            match auth with
            | .ok p =>
                (.ok p,
                  { cache := pySet st.cache video_id (.info p now (isAgeRestricted e))
                    throttled_until := if isThrottled e then now + THROTTLE_COOLDOWN
                      else st.throttled_until },
                  [.anon, .auth])
            | .error e2 =>
                (.error e2, { st with cache := pySet st.cache video_id (.err e2 now) },
                  [.anon, .auth])
          else
            (.error e, { st with cache := pySet st.cache video_id (.err e now) },
              [.anon]) := by
  have h1 : (("auto" : String) == "on") = false := by decide
  have h2 : (("auto" : String) == "auto") = true := by decide
  obtain ⟨hfl, hcd⟩ := Bool.or_eq_false_iff.mp hflag
  simp only [getVideoInfoMiss, h1, h2, Bool.false_and, Bool.true_and, Bool.and_true,
    hflag, hfl, hcd, Bool.false_or, if_false, if_true, Bool.false_eq_true,
    ite_false, ite_true]

/-- C1 (amended): in auto mode with an authenticated instance available, a
call that reaches extraction tries the authenticated extractor first — and
never the anonymous one — exactly when the (possibly stale) cache entry
carries the age-restricted flag or the global throttle cooldown is active,
and the anonymous extractor first otherwise; classification gives
age-restriction priority (`_is_throttled` never matches an age-restriction
match); an anonymous failure matching either class triggers an immediate
authenticated retry, and when that retry succeeds an age-restriction match
records the per-video flag while a throttle match arms the global
10-minute cooldown (`throttled_until = now + 600`).  As stated the claim
fails: a failed authenticated retry records neither flag nor cooldown —
see the counterexample theorem. -/
theorem c1_auto_arbitration (st : InfoState) (video_id : String) (now : ℚ)
    (anon auth : Except String VideoInfo)
    (hmiss : cacheCheck (pyGet st.cache video_id) now = none) :
    (∀ e, isThrottled e = true → isAgeRestricted e = false) ∧
    (((pyGet st.cache video_id).elim false InfoEntry.ageRestricted
        || decide (now < st.throttled_until)) = true →
      (getVideoInfo st video_id "auto" now true anon auth).2.2 = [.auth]) ∧
    (((pyGet st.cache video_id).elim false InfoEntry.ageRestricted
        || decide (now < st.throttled_until)) = false →
      (∀ p, anon = .ok p →
        (getVideoInfo st video_id "auto" now true anon auth).2.2 = [.anon]) ∧
      (∀ e, anon = .error e → (isAgeRestricted e || isThrottled e) = true →
        (getVideoInfo st video_id "auto" now true anon auth).2.2 = [.anon, .auth] ∧
        ∀ p, auth = .ok p →
          getVideoInfo st video_id "auto" now true anon auth =
            (.ok p,
              { cache := pySet st.cache video_id (.info p now (isAgeRestricted e))
                throttled_until := if isThrottled e then now + THROTTLE_COOLDOWN
                  else st.throttled_until },
              [.anon, .auth])) ∧
      (∀ e, anon = .error e → (isAgeRestricted e || isThrottled e) = false →
        (getVideoInfo st video_id "auto" now true anon auth).2.2 = [.anon])) := by
  refine ⟨?_, ?_, ?_⟩
  · intro e hthr
    by_cases h : isAgeRestricted e = true
    · rw [isThrottled, if_pos h] at hthr
      exact Bool.noConfusion hthr
    · simpa using h
  · intro hflag
    rw [getVideoInfo_auto_miss hmiss, getVideoInfoMiss_auto_authFirst _ _ _ _ _ hflag]
    cases auth <;> rfl
  · intro hflag
    rw [getVideoInfo_auto_miss hmiss, getVideoInfoMiss_auto_anonFirst _ _ _ _ _ hflag]
    refine ⟨?_, ?_, ?_⟩
    · rintro p rfl
      rfl
    · rintro e rfl hcls
      refine ⟨by cases auth <;> simp [hcls], ?_⟩
      rintro p rfl
      simp [hcls]
    · rintro e rfl hcls
      simp [hcls]

/-- C1 witness: empty cache, no cooldown, anonymous failure with an
age-restriction message, successful authenticated retry: the call attempts
anonymous then authenticated extraction and records the per-video flag. -/
theorem c1_auto_arbitration_witness :
    getVideoInfo ⟨[], 0⟩ "v" "auto" 1000 true (.error "age-restricted") (.ok "I") =
      (.ok "I", ⟨[("v", .info "I" 1000 true)], 0⟩, [.anon, .auth]) := by
  have h := (c1_auto_arbitration ⟨[], 0⟩ "v" 1000 (.error "age-restricted")
    (.ok "I") rfl).2.2 (by decide)
  have h2 := (h.2.1 "age-restricted" rfl (by decide)).2 "I" rfl
  simpa [pySet, (by decide : isThrottled "age-restricted" = false),
    (by decide : isAgeRestricted "age-restricted" = true)] using h2

/-- C1 counterexample: an anonymous failure matching the throttle patterns
(`"bot"`) whose authenticated retry also fails leaves `throttled_until`
unchanged at 0 — the claimed arming of the 10-minute cooldown
(`now + 600 = 1600`) does not happen, and the per-video flag is likewise
not recorded on a failed age-restriction retry. -/
theorem c1_auto_arbitration_counterexample :
    isThrottled "bot" = true ∧
    getVideoInfo ⟨[], 0⟩ "v" "auto" 1000 true (.error "bot") (.error "bot2") =
      (.error "bot2", ⟨[("v", .err "bot2" 1000)], 0⟩, [.anon, .auth]) ∧
    (1000 : ℚ) + THROTTLE_COOLDOWN ≠ 0 := by
  refine ⟨by decide, ?_, by norm_num [THROTTLE_COOLDOWN]⟩
  norm_num [getVideoInfo, getVideoInfoMiss, cacheCheck, pyGet, pySet]
  decide

theorem getVideoInfo_miss_general {st : InfoState} {video_id cookie_mode : String}
    {now : ℚ} {aa : Bool} {anon auth : Except String VideoInfo}
    (hcc : cacheCheck (pyGet st.cache video_id) now = none) :
    getVideoInfo st video_id cookie_mode now aa anon auth =
      getVideoInfoMiss st video_id
        (if cookie_mode == "off" || cookie_mode == "auto" || cookie_mode == "on"
          then cookie_mode else "auto") now aa anon auth := by
  simp [getVideoInfo, hcc]

theorem getVideoInfoMiss_ok_preserves_flag (st : InfoState) (video_id m : String)
    (now : ℚ) (aa : Bool) (anon auth : Except String VideoInfo) (e : InfoEntry)
    (he : pyGet st.cache video_id = some e) (hflag : e.ageRestricted = true) :
    ∀ p, (getVideoInfoMiss st video_id m now aa anon auth).1 = .ok p →
      (pyGet (getVideoInfoMiss st video_id m now aa anon auth).2.1.cache
        video_id).elim false InfoEntry.ageRestricted = true := by
  intro p hp
  cases hmo : (m == "on") <;> cases hma : (m == "auto") <;> cases haa : aa <;>
    simp only [getVideoInfoMiss, he, hflag, hmo, hma, haa, Option.elim,
      Bool.false_and, Bool.true_and, Bool.and_true, Bool.and_false, Bool.true_or,
      Bool.false_or, Bool.or_true, if_true, if_false, ite_true, ite_false,
      Bool.false_eq_true, Bool.true_eq_false] at hp ⊢ <;>
  first
    | (cases auth with
        | ok q => simp [pyGet_pySet_self, InfoEntry.ageRestricted]
        | error e2 => simp at hp)
    | (cases anon with
        | ok q => simp [pyGet_pySet_self, InfoEntry.ageRestricted]
        | error e2 => simp at hp)

/-- C2 (amended): once a video's cache entry carries the age-restricted
flag, every call that returns info keeps the flag on that entry (a cache
hit leaves the entry untouched, a successful refresh copies the flag
forward), and while the flagged entry is present every auto-mode call with
the authenticated instance available never attempts anonymous extraction.
As stated the claim fails: a refresh whose extraction fails replaces the
entry with an error entry that does not carry the flag — see the
counterexample theorem. -/
theorem c2_age_flag_stickiness (st : InfoState) (video_id cookie_mode : String)
    (now : ℚ) (authAvailable : Bool) (anon auth : Except String VideoInfo)
    (e : InfoEntry) (he : pyGet st.cache video_id = some e)
    (hflag : e.ageRestricted = true) :
    (∀ p,
      (getVideoInfo st video_id cookie_mode now authAvailable anon auth).1 = .ok p →
      (pyGet (getVideoInfo st video_id cookie_mode now authAvailable anon
        auth).2.1.cache video_id).elim false InfoEntry.ageRestricted = true) ∧
    (cookie_mode = "auto" → authAvailable = true →
      Attempt.anon ∉
        (getVideoInfo st video_id cookie_mode now authAvailable anon auth).2.2) := by
  constructor
  · intro p hp
    rcases hcc : cacheCheck (pyGet st.cache video_id) now with _ | r
    · rw [getVideoInfo_miss_general hcc] at hp ⊢
      exact getVideoInfoMiss_ok_preserves_flag _ _ _ _ _ _ _ e he hflag p hp
    · rw [getVideoInfo_hit hcc] at hp ⊢
      simp [he, hflag]
  · rintro rfl rfl
    rcases hcc : cacheCheck (pyGet st.cache video_id) now with _ | r
    · rw [getVideoInfo_auto_miss hcc,
        getVideoInfoMiss_auto_authFirst _ _ _ _ _ (by simp [he, hflag])]
      cases auth <;> simp
    · rw [getVideoInfo_hit hcc]
      simp

/-- C2 witness: a 5-hours-stale flagged entry is refreshed by a successful
authenticated extraction with no anonymous attempt, and the refreshed
entry still carries the flag. -/
theorem c2_age_flag_stickiness_witness :
    (pyGet (getVideoInfo ⟨[("v", .info "OLD" 0 true)], 0⟩ "v" "auto" 20000 true
      (.error "x") (.ok "NEW")).2.1.cache "v").elim false
        InfoEntry.ageRestricted = true ∧
    Attempt.anon ∉ (getVideoInfo ⟨[("v", .info "OLD" 0 true)], 0⟩ "v" "auto" 20000
      true (.error "x") (.ok "NEW")).2.2 := by
  have h := c2_age_flag_stickiness ⟨[("v", .info "OLD" 0 true)], 0⟩ "v" "auto"
    20000 true (.error "x") (.ok "NEW") (.info "OLD" 0 true) rfl rfl
  refine ⟨h.1 "NEW" ?_, h.2 rfl rfl⟩
  norm_num [getVideoInfo, getVideoInfoMiss, cacheCheck, pyGet, pySet,
    INFO_CACHE_TTL, NEGATIVE_CACHE_TTL]
  decide

/-- C2 counterexample: the same stale flagged entry refreshed by a call
whose authenticated extraction fails is replaced by an error entry that
drops the flag — the flag does not persist across this refresh of the
cache entry. -/
theorem c2_age_flag_stickiness_counterexample :
    (InfoEntry.info "OLD" 0 true).ageRestricted = true ∧
    getVideoInfo ⟨[("v", .info "OLD" 0 true)], 0⟩ "v" "auto" 20000 true
        (.error "x") (.error "boom") =
      (.error "boom", ⟨[("v", .err "boom" 20000)], 0⟩, [.auth]) ∧
    (InfoEntry.err "boom" 20000).ageRestricted = false := by
  refine ⟨rfl, ?_, rfl⟩
  norm_num [getVideoInfo, getVideoInfoMiss, cacheCheck, pyGet, pySet,
    INFO_CACHE_TTL, NEGATIVE_CACHE_TTL]
  decide

/-- C9: if connection A registered for token T has been replaced in the
hub's connection table by a newer connection B before A's disconnect
cleanup runs, then A's cleanup changes no hub state at all — B's
connection entry, the cached device state, the profile binding, the device
name, the save-throttle timestamp and every pairing survive — and no
notification is sent; and any cleanup run that does change hub state or
notify a peer was for the connection object currently registered for T. -/
theorem c9_reconnect_race_cleanup (st : HubState) (token : String) (A B : Nat) :
    (pyGet st.connections token = some B → B ≠ A →
      cleanupConnection st token A = (st, [])) ∧
    (cleanupConnection st token A ≠ (st, []) →
      pyGet st.connections token = some A) := by
  constructor
  · intro hB hBA
    have hg : pyGet st.connections token ≠ some A := by
      rw [hB]
      exact fun hc => hBA (Option.some_inj.mp hc)
    rw [cleanupConnection, if_pos hg]
  · intro hne
    by_contra h
    exact hne (by rw [cleanupConnection, if_pos h])

/-- C9 witness: token `"T"` has reconnected as connection 2; the cleanup of
the old connection 1 leaves the populated hub state fully intact and sends
nothing. -/
theorem c9_reconnect_race_cleanup_witness :
    cleanupConnection
      ⟨[("T", 2)], [("T", 7)], [("R", "T")], [("T", 4)], [("T", "TV")], [("T", 3)]⟩
      "T" 1 =
    (⟨[("T", 2)], [("T", 7)], [("R", "T")], [("T", 4)], [("T", "TV")], [("T", 3)]⟩,
      []) :=
  (c9_reconnect_race_cleanup
    ⟨[("T", 2)], [("T", 7)], [("R", "T")], [("T", 4)], [("T", "TV")], [("T", 3)]⟩
    "T" 1 2).1 (by decide) (by decide)

theorem pcHolds_update {n : Nat} {pcs : Fin n → TPC} {i j : Fin n} {x : TPC}
    (h : pcHolds (Function.update pcs i x j)) :
    (j = i ∧ pcHolds x) ∨ (j ≠ i ∧ pcHolds (pcs j)) := by
  by_cases hji : j = i
  · subst hji
    rw [Function.update_same] at h
    exact Or.inl ⟨rfl, h⟩
  · rw [Function.update_noteq hji] at h
    exact Or.inr ⟨hji, h⟩

theorem update_pc_cases {n : Nat} {pcs : Fin n → TPC} {i j : Fin n} {x y : TPC}
    (h : Function.update pcs i x j = y) :
    (j = i ∧ x = y) ∨ (j ≠ i ∧ pcs j = y) := by
  by_cases hji : j = i
  · subst hji
    rw [Function.update_same] at h
    exact Or.inl ⟨rfl, h⟩
  · rw [Function.update_noteq hji] at h
    exact Or.inr ⟨hji, h⟩

theorem execInv_init (res n : Nat) : ExecInv res (initExec n) := by
  refine ⟨?_, fun _ => rfl, ?_, ?_, ?_, ?_⟩
  · intro i hi
    exact hi.elim
  · intro v hv
    exact Option.noConfusion hv
  · intro i h
    exact TPC.noConfusion h
  · intro i v h
    exact TPC.noConfusion h
  · intro i v h
    exact TPC.noConfusion h

theorem execInv_step {res n : Nat} {s t : ExecState n}
    (hinv : ExecInv res s) (hstep : HStep res s t) : ExecInv res t := by
  obtain ⟨inv1, inv2, inv3, inv4, inv5, inv6⟩ := hinv
  cases hstep with
  | readHit i v hpc hc =>
      obtain ⟨hvres, hcount⟩ := inv3 v hc
      subst hvres
      refine ⟨?_, ?_, inv3, ?_, ?_, ?_⟩
      · intro j hj
        rcases pcHolds_update hj with ⟨rfl, hx⟩ | ⟨_, hold⟩
        · exact hx.elim
        · exact inv1 j hold
      · intro h0
        rw [h0] at hc
        exact Option.noConfusion hc
      · intro j hj
        rcases update_pc_cases hj with ⟨rfl, hx⟩ | ⟨_, hold⟩
        · exact TPC.noConfusion hx
        · exact inv4 j hold
      · intro j w hj
        rcases update_pc_cases hj with ⟨rfl, hx⟩ | ⟨_, hold⟩
        · exact TPC.noConfusion hx
        · exact inv5 j w hold
      · intro j w hj
        rcases update_pc_cases hj with ⟨rfl, hx⟩ | ⟨_, hold⟩
        · obtain rfl := (TPC.finished.injEq _ _).mp hx
          exact ⟨rfl, hc⟩
        · exact inv6 j w hold
  | readMiss i hpc hc =>
      refine ⟨?_, inv2, inv3, ?_, ?_, ?_⟩
      · intro j hj
        rcases pcHolds_update hj with ⟨rfl, hx⟩ | ⟨_, hold⟩
        · exact hx.elim
        · exact inv1 j hold
      · intro j hj
        rcases update_pc_cases hj with ⟨rfl, hx⟩ | ⟨_, hold⟩
        · exact TPC.noConfusion hx
        · exact inv4 j hold
      · intro j w hj
        rcases update_pc_cases hj with ⟨rfl, hx⟩ | ⟨_, hold⟩
        · exact TPC.noConfusion hx
        · exact inv5 j w hold
      · intro j w hj
        rcases update_pc_cases hj with ⟨rfl, hx⟩ | ⟨_, hold⟩
        · exact TPC.noConfusion hx
        · exact inv6 j w hold
  | acquire i hpc hl =>
      refine ⟨?_, inv2, inv3, ?_, ?_, ?_⟩
      · intro j hj
        rcases pcHolds_update hj with ⟨rfl, _⟩ | ⟨_, hold⟩
        · rfl
        · exfalso
          have := inv1 j hold
          rw [hl] at this
          exact Option.noConfusion this
      · intro j hj
        rcases update_pc_cases hj with ⟨rfl, hx⟩ | ⟨_, hold⟩
        · exact TPC.noConfusion hx
        · exact inv4 j hold
      · intro j w hj
        rcases update_pc_cases hj with ⟨rfl, hx⟩ | ⟨_, hold⟩
        · exact TPC.noConfusion hx
        · exact inv5 j w hold
      · intro j w hj
        rcases update_pc_cases hj with ⟨rfl, hx⟩ | ⟨_, hold⟩
        · exact TPC.noConfusion hx
        · exact inv6 j w hold
  | recheckHit i v hpc hc =>
      obtain ⟨hvres, _⟩ := inv3 v hc
      subst hvres
      have hli : s.lock = some i := inv1 i (by rw [holdsLock, hpc]; trivial)
      refine ⟨?_, inv2, inv3, ?_, ?_, ?_⟩
      · intro j hj
        rcases pcHolds_update hj with ⟨rfl, _⟩ | ⟨_, hold⟩
        · exact hli
        · exact inv1 j hold
      · intro j hj
        rcases update_pc_cases hj with ⟨rfl, hx⟩ | ⟨_, hold⟩
        · exact TPC.noConfusion hx
        · exact inv4 j hold
      · intro j w hj
        rcases update_pc_cases hj with ⟨rfl, hx⟩ | ⟨_, hold⟩
        · obtain rfl := (TPC.releasing.injEq _ _).mp hx
          exact ⟨rfl, hc⟩
        · exact inv5 j w hold
      · intro j w hj
        rcases update_pc_cases hj with ⟨rfl, hx⟩ | ⟨_, hold⟩
        · exact TPC.noConfusion hx
        · exact inv6 j w hold
  | recheckMiss i hpc hc =>
      have hli : s.lock = some i := inv1 i (by rw [holdsLock, hpc]; trivial)
      refine ⟨?_, inv2, inv3, ?_, ?_, ?_⟩
      · intro j hj
        rcases pcHolds_update hj with ⟨rfl, _⟩ | ⟨_, hold⟩
        · exact hli
        · exact inv1 j hold
      · intro j hj
        rcases update_pc_cases hj with ⟨rfl, _⟩ | ⟨_, hold⟩
        · exact hc
        · exact inv4 j hold
      · intro j w hj
        rcases update_pc_cases hj with ⟨rfl, hx⟩ | ⟨_, hold⟩
        · exact TPC.noConfusion hx
        · exact inv5 j w hold
      · intro j w hj
        rcases update_pc_cases hj with ⟨rfl, hx⟩ | ⟨_, hold⟩
        · exact TPC.noConfusion hx
        · exact inv6 j w hold
  | resolve i hpc =>
      have hli : s.lock = some i := inv1 i (by rw [holdsLock, hpc]; trivial)
      have hc : s.cache = none := inv4 i hpc
      have hcount : s.resolveCount = 0 := inv2 hc
      refine ⟨?_, ?_, ?_, ?_, ?_, ?_⟩
      · intro j hj
        rcases pcHolds_update hj with ⟨rfl, _⟩ | ⟨_, hold⟩
        · exact hli
        · exact inv1 j hold
      · intro h0
        exact Option.noConfusion h0
      · intro w hw
        obtain rfl := Option.some_inj.mp hw
        rw [hcount]
        exact ⟨rfl, rfl⟩
      · intro j hj
        exfalso
        rcases update_pc_cases hj with ⟨rfl, hx⟩ | ⟨hne, hold⟩
        · exact TPC.noConfusion hx
        · have := inv1 j (by rw [holdsLock, hold]; trivial)
          rw [hli] at this
          exact hne (Option.some_inj.mp this.symm)
      · intro j w hj
        rcases update_pc_cases hj with ⟨rfl, hx⟩ | ⟨_, hold⟩
        · obtain rfl := (TPC.releasing.injEq _ _).mp hx
          exact ⟨rfl, rfl⟩
        · exfalso
          rw [(inv5 j w hold).2] at hc
          exact Option.noConfusion hc
      · intro j w hj
        rcases update_pc_cases hj with ⟨rfl, hx⟩ | ⟨_, hold⟩
        · exact TPC.noConfusion hx
        · exfalso
          rw [(inv6 j w hold).2] at hc
          exact Option.noConfusion hc
  | release i v hpc =>
      obtain ⟨hvres, hcs⟩ := inv5 i v hpc
      subst hvres
      have hli : s.lock = some i := inv1 i (by rw [holdsLock, hpc]; trivial)
      refine ⟨?_, inv2, inv3, ?_, ?_, ?_⟩
      · intro j hj
        exfalso
        rcases pcHolds_update hj with ⟨rfl, hx⟩ | ⟨hne, hold⟩
        · exact hx.elim
        · have := inv1 j hold
          rw [hli] at this
          exact hne (Option.some_inj.mp this.symm)
      · intro j hj
        rcases update_pc_cases hj with ⟨rfl, hx⟩ | ⟨_, hold⟩
        · exact TPC.noConfusion hx
        · exact inv4 j hold
      · intro j w hj
        rcases update_pc_cases hj with ⟨rfl, hx⟩ | ⟨_, hold⟩
        · exact TPC.noConfusion hx
        · exact inv5 j w hold
      · intro j w hj
        rcases update_pc_cases hj with ⟨rfl, hx⟩ | ⟨_, hold⟩
        · obtain rfl := (TPC.finished.injEq _ _).mp hx
          exact ⟨rfl, hcs⟩
        · exact inv6 j w hold

theorem execInv_reach {res n : Nat} {s : ExecState n}
    (h : ExecReach res s) : ExecInv res s := by
  induction h with
  | init => exact execInv_init res n
  | step _ hstep ih => exact execInv_step ih hstep

/-- C3 (amended): for a fixed uncached video id, every interleaving of `n`
concurrent callers of the mutex-guarded cache-miss path of
`helpers.get_video_info` that runs all callers to completion invokes the
resolver exactly once, and every caller finishes with the resolver's
result — the `_info_lock` mutex with the double-checked re-read enforces
at-most-one concurrent extraction.  (As stated the claim fails for the
video-info endpoint: the `/api/info` handler in src/web/routes/video.py
does not call this path — it performs a fresh extraction per request, see
the counterexample theorem.) -/
theorem c3_lock_single_resolve {n : Nat} (res : Nat) (s : ExecState n)
    (hreach : ExecReach res s) (hdone : ∀ i, ∃ v, s.pcs i = .finished v)
    (i₀ : Fin n) :
    s.resolveCount = 1 ∧ ∀ i v, s.pcs i = .finished v → v = res := by
  obtain ⟨_, _, inv3, _, _, inv6⟩ := execInv_reach hreach
  obtain ⟨v0, hv0⟩ := hdone i₀
  obtain ⟨_, hcache⟩ := inv6 i₀ v0 hv0
  exact ⟨(inv3 res hcache).2, fun i v h => (inv6 i v h).1⟩

/-- C3 witness: a complete run of the locked path (miss, acquire, re-check
miss, resolve, release) ends with one resolver invocation and the
resolver's value delivered. -/
theorem c3_lock_single_resolve_witness :
    lockRun5.resolveCount = 1 ∧
      ∀ i v, lockRun5.pcs i = .finished v → v = 42 := by
  have h1 : HStep 42 lockRun0 lockRun1 := HStep.readMiss lockRun0 0 rfl rfl
  have h2 : HStep 42 lockRun1 lockRun2 := HStep.acquire lockRun1 0 rfl rfl
  have h3 : HStep 42 lockRun2 lockRun3 := HStep.recheckMiss lockRun2 0 rfl rfl
  have h4 : HStep 42 lockRun3 lockRun4 := HStep.resolve lockRun3 0 rfl
  have h5 : HStep 42 lockRun4 lockRun5 := HStep.release lockRun4 0 42 rfl
  have hreach : ExecReach 42 lockRun5 :=
    .step (.step (.step (.step (.step .init h1) h2) h3) h4) h5
  refine c3_lock_single_resolve 42 lockRun5 hreach (fun i => ⟨42, ?_⟩) 0
  have hi : i = 0 := Subsingleton.elim i 0
  rw [hi]
  rfl

/-- C3 counterexample: two requests to the video-info endpoint for the same
uncached id invoke the resolver twice, not exactly once — the
`/api/info/` handler performs a fresh `extract_info` per request and never
consults the mutex-guarded cache path. -/
theorem c3_lock_single_resolve_counterexample :
    infoEndpointBatchCalls (fun _ => .ok "I") ["vid", "vid"] = 2 ∧
    infoEndpointBatchCalls (fun _ => .ok "I") ["vid", "vid"] ≠ 1 :=
  ⟨rfl, by decide⟩

end Pytr
